import Mathlib

set_option maxRecDepth 4000

/-!
Verification of the listing-protocol codec and native return-code translator
of the mountpoint-s3 client core (`mountpoint-s3-client/src/s3_crt_client/list_objects.rs`
and `aws-crt-s3/src/lib.rs`), as a shallow embedding in Lean 4.

The XML document tree follows the `xmltree` crate's data model: an element has
a name and an ordered list of child nodes, each either a nested element or a
text run. Attributes are not modelled because no code under verification ever
reads them.
-/

/-- A node of the XML document tree (xmltree's `Element` / `XMLNode::Text`).
Element nodes carry their tag name and ordered children; text nodes carry a
text run. -/
inductive XNode where
  | element (name : String) (children : List XNode)
  | text (s : String)

/-- The tag name of a node (text nodes have none; callers only apply this to
element nodes). -/
def XNode.nodeName : XNode → String
  | .element n _ => n
  | .text _ => ""

/-- The children of a node (text nodes have none). -/
def XNode.children : XNode → List XNode
  | .element _ cs => cs
  | .text _ => []

/-- The text runs among a list of child nodes, in order (used by xmltree's
`Element::get_text`). -/
def textRuns : List XNode → List String
  | [] => []
  | .text s :: rest => s :: textRuns rest
  | .element _ _ :: rest => textRuns rest

/-- xmltree `Element::get_text`: `none` when the element has no text children,
otherwise the concatenation of all its text children in order. -/
def XNode.getTextOpt (e : XNode) : Option String :=
  match textRuns e.children with
  | [] => none
  | parts => some (String.join parts)

/-- xmltree `Element::get_child(name)`: the first element child with the given
name, skipping text nodes. -/
def getChildList (cs : List XNode) (name : String) : Option XNode :=
  match cs with
  | [] => none
  | .element n k :: rest => if n = name then some (.element n k) else getChildList rest name
  | .text _ :: rest => getChildList rest name

/-- xmltree `Element::take_child(name)`: remove and return the first element
child with the given name, leaving the remaining children in order. -/
def takeChildList (cs : List XNode) (name : String) : Option (XNode × List XNode) :=
  match cs with
  | [] => none
  | .element n k :: rest =>
      if n = name then some (.element n k, rest)
      else
        match takeChildList rest name with
        | some (e, rest2) => some (e, .element n k :: rest2)
        | none => none
  | .text s :: rest =>
      match takeChildList rest name with
      | some (e, rest2) => some (e, .text s :: rest2)
      | none => none

/-- The element children with a given name, in document order (specification
helper for the repeated `take_child` loops). -/
def elemsNamed (name : String) : List XNode → List XNode
  | [] => []
  | .element n k :: rest =>
      if n = name then .element n k :: elemsNamed name rest else elemsNamed name rest
  | .text _ :: rest => elemsNamed name rest

/-- The children remaining after removing every element child with a given
name (specification helper for the repeated `take_child` loops). -/
def removeNamed (name : String) : List XNode → List XNode
  | [] => []
  | .element n k :: rest =>
      if n = name then removeNamed name rest else .element n k :: removeNamed name rest
  | .text s :: rest => .text s :: removeNamed name rest

example : XNode.getTextOpt (.element "Key" [.text "a.txt"]) = some "a.txt" := rfl
example : getChildList [.text "x", .element "A" [], .element "B" []] "B" = some (.element "B" []) := rfl

/-- The `ParseError` enum of `list_objects.rs`. The Rust variants carry the
offending XML subtree (boxed) and the field name; the wrapped library error
values (`ParseBoolError`, `ParseIntError`, `time::error::Parse`,
`xmltree::ParseError`) carry no information the codec inspects, so they are
not modelled beyond the variant tag. -/
inductive ParseError where
  | InvalidResponse (node : XNode) (problem : String)
  | Xml (problem : String)
  | MissingField (node : XNode) (field : String)
  | Bool (field : String)
  | Int (field : String)
  | OffsetDateTime (field : String)

/-- The helper `get_text` of `list_objects.rs`: copy text out of an XML
element, failing with `InvalidResponse` when the element has no text. -/
def get_text (element : XNode) : Except ParseError String :=
  match element.getTextOpt with
  | some s => .ok s
  | none => .error (.InvalidResponse element "field has no text")

/-- The helper `get_child` of `list_objects.rs`: the child with the given
name, failing with `MissingField` when absent. -/
def get_child (element : XNode) (name : String) : Except ParseError XNode :=
  match getChildList element.children name with
  | some c => .ok c
  | none => .error (.MissingField element name)

/-- The helper `get_field` of `list_objects.rs`: the text of the named child. -/
def get_field (element : XNode) (name : String) : Except ParseError String :=
  match get_child element name with
  | .ok c => get_text c
  | .error e => .error e

/-- Rust `bool::from_str`: exactly the strings "true" and "false" parse. -/
def boolFromStr : String → Option Bool
  | "true" => some true
  | "false" => some false
  | _ => none

/-- Rust `u64::from_str`: an optional leading plus sign, then one or more
decimal digits, value below 2^64; anything else (including overflow) fails. -/
def u64FromStr (s : String) : Option Nat :=
  let cs := match s.toList with
    | '+' :: rest => rest
    | cs => cs
  if cs.isEmpty then none
  else if cs.all Char.isDigit then
    let v := cs.foldl (fun a c => a * 10 + (c.toNat - 48)) 0
    if v < 2 ^ 64 then some v else none
  else none

/-- A parsed RFC 3339 timestamp, by components, as produced by
`time::OffsetDateTime::parse` with the `Rfc3339` format description. -/
structure Rfc3339Time where
  year : Nat
  month : Nat
  day : Nat
  hour : Nat
  minute : Nat
  second : Nat
  nanosecond : Nat
  offsetMinutes : Int
deriving DecidableEq

/-- The numeric value of a decimal digit character, if it is one. -/
def digitVal (c : Char) : Option Nat :=
  if c.isDigit then some (c.toNat - 48) else none

/-- Read exactly `k` decimal digits off the front of the input. -/
def fixedDigits : Nat → List Char → Option (Nat × List Char)
  | 0, cs => some (0, cs)
  | _ + 1, [] => none
  | k + 1, c :: rest =>
    match digitVal c with
    | none => none
    | some d =>
      match fixedDigits k rest with
      | none => none
      | some (v, rest2) => some (d * 10 ^ k + v, rest2)

/-- Read the maximal run of decimal digits off the front of the input. -/
def digitRun : List Char → (List Nat × List Char)
  | [] => ([], [])
  | c :: rest =>
    match digitVal c with
    | some d => let (ds, r) := digitRun rest; (d :: ds, r)
    | none => ([], c :: rest)

/-- Whether a (proleptic Gregorian) year is a leap year. -/
def isLeapYear (y : Nat) : Bool :=
  y % 4 = 0 && (y % 100 ≠ 0 || y % 400 = 0)

/-- The number of days in a month of a year. -/
def daysInMonth (y m : Nat) : Nat :=
  if m = 2 then (if isLeapYear y then 29 else 28)
  else if m = 4 || m = 6 || m = 9 || m = 11 then 30
  else 31

/-- Modelled behaviour of `time::OffsetDateTime::parse` with `Rfc3339`:
`YYYY-MM-DDThh:mm:ss[.frac](Z|±hh:mm)` with the date/time separator and the
zulu marker accepted in either case, component ranges validated (calendar day
against month length and leap years), an optional fraction of one to nine
digits giving nanoseconds, and no trailing input. -/
def parseRfc3339 (s : String) : Option Rfc3339Time :=
  match fixedDigits 4 s.toList with
  | none => none
  | some (year, cs) =>
    match cs with
    | '-' :: cs =>
      (match fixedDigits 2 cs with
      | none => none
      | some (month, cs) =>
        match cs with
        | '-' :: cs =>
          (match fixedDigits 2 cs with
          | none => none
          | some (day, cs) =>
            match cs with
            | c :: cs =>
              if c = 'T' || c = 't' then
                match fixedDigits 2 cs with
                | none => none
                | some (hour, cs) =>
                  match cs with
                  | ':' :: cs =>
                    (match fixedDigits 2 cs with
                    | none => none
                    | some (minute, cs) =>
                      match cs with
                      | ':' :: cs =>
                        (match fixedDigits 2 cs with
                        | none => none
                        | some (second, cs) =>
                          let (nanoOpt, cs) :=
                            match cs with
                            | '.' :: cs2 =>
                              (match digitRun cs2 with
                              | (ds, cs3) =>
                                if ds.isEmpty || ds.length > 9 then (none, cs)
                                else
                                  (some ((ds.foldl (fun a d => a * 10 + d) 0) *
                                    10 ^ (9 - ds.length)), cs3))
                            | _ => (some 0, cs)
                          match nanoOpt with
                          | none => none
                          | some nanosecond =>
                            let offset : Option (Int × List Char) :=
                              match cs with
                              | c :: cs2 =>
                                if c = 'Z' || c = 'z' then some (0, cs2)
                                else if c = '+' || c = '-' then
                                  match fixedDigits 2 cs2 with
                                  | none => none
                                  | some (oh, cs3) =>
                                    match cs3 with
                                    | ':' :: cs4 =>
                                      (match fixedDigits 2 cs4 with
                                      | none => none
                                      | some (om, cs5) =>
                                        if oh ≤ 23 && om ≤ 59 then
                                          some ((if c = '-' then -(oh * 60 + om : Int)
                                            else (oh * 60 + om : Int)), cs5)
                                        else none)
                                    | _ => none
                                else none
                              | [] => none
                            match offset with
                            | none => none
                            | some (offsetMinutes, cs6) =>
                              if cs6.isEmpty && 1 ≤ month && month ≤ 12 &&
                                  1 ≤ day && day ≤ daysInMonth year month &&
                                  hour ≤ 23 && minute ≤ 59 && second ≤ 59 then
                                some ⟨year, month, day, hour, minute, second,
                                  nanosecond, offsetMinutes⟩
                              else none)
                      | _ => none)
                  | _ => none
              else none
            | [] => none)
        | _ => none)
    | _ => none

example : parseRfc3339 "2023-01-01T00:00:00Z" =
    some ⟨2023, 1, 1, 0, 0, 0, 0, 0⟩ := rfl
example : parseRfc3339 "2023-02-29T00:00:00Z" = none := rfl
example : parseRfc3339 "2024-02-29T12:34:56.5-05:30" =
    some ⟨2024, 2, 29, 12, 34, 56, 500000000, -330⟩ := rfl
example : u64FromStr "10" = some 10 := by decide
example : boolFromStr "false" = some false := by decide

/-- `RestoreStatus` of the object-client data model: a restoration is either
in progress or complete with an expiry instant. -/
inductive RestoreStatus where
  | InProgress
  | Restored (expiry : Rfc3339Time)
deriving DecidableEq

/-- `ChecksumAlgorithm` of the object-client data model, with an `Unknown`
catch-all preserving the original name. -/
inductive ChecksumAlgorithm where
  | Crc64nvme
  | Crc32
  | Crc32c
  | Sha1
  | Sha256
  | Unknown (s : String)
deriving DecidableEq

/-- `ObjectInfo` of the object-client data model. -/
structure ObjectInfo where
  key : String
  size : Nat
  last_modified : Rfc3339Time
  storage_class : Option String
  restore_status : Option RestoreStatus
  etag : String
  checksum_algorithms : List ChecksumAlgorithm
deriving DecidableEq

/-- `ListObjectsResult` of the object-client data model. -/
structure ListObjectsResult where
  objects : List ObjectInfo
  common_prefixes : List String
  next_continuation_token : Option String
deriving DecidableEq

/-- One `while let Some(c) = element.take_child(name)` loop: repeatedly remove
the first child with the given name and decode it with `f`, collecting the
decoded values in order and returning the drained children. The fuel argument
only bounds the recursion; since each iteration removes one child, fuel equal
to the list length always suffices (see `takeAllMapMGo_eq`). -/
def takeAllMapMGo (name : String) (f : XNode → Except ParseError α) :
    Nat → List XNode → Except ParseError (List α × List XNode)
  | 0, cs => .ok ([], cs)
  | fuel + 1, cs =>
    match takeChildList cs name with
    | none => .ok ([], cs)
    | some (e, rest) =>
      match f e with
      | .error err => .error err
      | .ok a =>
        match takeAllMapMGo name f fuel rest with
        | .error err => .error err
        | .ok (vals, final) => .ok (a :: vals, final)

/-- The `take_child` loop, run to completion. -/
def takeAllMapM (name : String) (f : XNode → Except ParseError α) (cs : List XNode) :
    Except ParseError (List α × List XNode) :=
  takeAllMapMGo name f cs.length cs

/-- Decode a list of elements in order, stopping at the first failure
(specification helper: the functional reading of the `take_child` loops). -/
def decodeList (f : XNode → Except ParseError α) : List XNode → Except ParseError (List α)
  | [] => .ok []
  | e :: es =>
    match f e with
    | .error err => .error err
    | .ok a =>
      match decodeList f es with
      | .error err => .error err
      | .ok l => .ok (a :: l)

/-- `parse_restore_status` of `list_objects.rs`: absent `RestoreStatus` child
is `none`; `IsRestoreInProgress=true` is `InProgress`; otherwise the required
`RestoreExpiryDate` is parsed as RFC 3339 into `Restored`. -/
def parse_restore_status (element : XNode) : Except ParseError (Option RestoreStatus) :=
  match getChildList element.children "RestoreStatus" with
  | none => .ok none
  | some restore_status =>
    match get_field restore_status "IsRestoreInProgress" with
    | .error e => .error e
    | .ok s =>
      match boolFromStr s with
      | none => .error (.Bool "IsRestoreInProgress")
      | some true => .ok (some .InProgress)
      | some false =>
        match get_field restore_status "RestoreExpiryDate" with
        | .error e => .error e
        | .ok d =>
          match parseRfc3339 d with
          | none => .error (.OffsetDateTime "RestoreExpiryDate")
          | some t => .ok (some (.Restored t))

/-- The fixed name table of `parse_checksum_algorithm`, with the
`Unknown(original text)` catch-all. -/
def checksumAlgorithmFromStr (s : String) : ChecksumAlgorithm :=
  match s with
  | "CRC64NVME" => .Crc64nvme
  | "CRC32" => .Crc32
  | "CRC32C" => .Crc32c
  | "SHA1" => .Sha1
  | "SHA256" => .Sha256
  | _ => .Unknown s

/-- `parse_checksum_algorithm` of `list_objects.rs`: drain every
`ChecksumAlgorithm` child, read its text and map it through the name table.
(The Rust caller discards the drained element, so only the collected list is
returned.) -/
def parse_checksum_algorithm (element : XNode) : Except ParseError (List ChecksumAlgorithm) :=
  match takeAllMapM "ChecksumAlgorithm"
      (fun content => (get_text content).map checksumAlgorithmFromStr) element.children with
  | .error e => .error e
  | .ok (algorithms, _) => .ok algorithms

/-- `parse_object_info_from_xml` of `list_objects.rs`, field by field in
source order: required `Key`, `Size` (u64), `LastModified` (RFC 3339),
optional `StorageClass` (any extraction failure becomes `none` via `.ok()`),
optional `RestoreStatus`, required `ETag`, repeated `ChecksumAlgorithm`. -/
def parse_object_info_from_xml (element : XNode) : Except ParseError ObjectInfo :=
  match get_field element "Key" with
  | .error e => .error e
  | .ok key =>
    match get_field element "Size" with
    | .error e => .error e
    | .ok sizeStr =>
      match u64FromStr sizeStr with
      | none => .error (.Int "Size")
      | some size =>
        match get_field element "LastModified" with
        | .error e => .error e
        | .ok lastModifiedStr =>
          match parseRfc3339 lastModifiedStr with
          | none => .error (.OffsetDateTime "LastModified")
          | some last_modified =>
            let storage_class := (get_field element "StorageClass").toOption
            match parse_restore_status element with
            | .error e => .error e
            | .ok restore_status =>
              match get_field element "ETag" with
              | .error e => .error e
              | .ok etag =>
                match parse_checksum_algorithm element with
                | .error e => .error e
                | .ok checksum_algorithms =>
                  .ok { key, size, last_modified, storage_class,
                        restore_status, etag, checksum_algorithms }

/-- The non-destructive optional `NextContinuationToken` lookup of
`parse_result_from_xml`: absent is `none`, but a present element must have
text. -/
def nextContinuationTokenLookup (cs : List XNode) : Except ParseError (Option String) :=
  match getChildList cs "NextContinuationToken" with
  | some elem =>
    (match get_text elem with
    | .error e => .error e
    | .ok t => .ok (some t))
  | none => .ok none

/-- `parse_result_from_xml` of `list_objects.rs`: drain `Contents` into
objects, drain `CommonPrefixes` into prefix strings, look up the optional
continuation token, read the required `IsTruncated` boolean, and enforce that
it matches the token's presence. (The source's invariant-violation message
contracts "does not"; it is spelled out here, with the same meaning.) -/
def parse_result_from_xml (element : XNode) : Except ParseError ListObjectsResult :=
  match takeAllMapM "Contents" parse_object_info_from_xml element.children with
  | .error e => .error e
  | .ok (objects, cs1) =>
    match takeAllMapM "CommonPrefixes" (fun cp => get_field cp "Prefix") cs1 with
    | .error e => .error e
    | .ok (common_prefixes, cs2) =>
      let element2 := XNode.element element.nodeName cs2
      match nextContinuationTokenLookup cs2 with
      | .error e => .error e
      | .ok next_continuation_token =>
        match get_field element2 "IsTruncated" with
        | .error e => .error e
        | .ok isTruncatedStr =>
          match boolFromStr isTruncatedStr with
          | none => .error (.Bool "IsTruncated")
          | some is_truncated =>
            if is_truncated ≠ next_continuation_token.isSome then
              .error (.InvalidResponse element2
                "IsTruncated does not match NextContinuationToken")
            else
              .ok { objects, common_prefixes, next_continuation_token }

example :
    parse_result_from_xml (.element "ListBucketResult"
      [.element "IsTruncated" [.text "false"]]) =
    .ok { objects := [], common_prefixes := [], next_continuation_token := none } := rfl
example :
    parse_result_from_xml (.element "ListBucketResult"
      [.element "IsTruncated" [.text "true"]]) =
    .error (.InvalidResponse (.element "ListBucketResult" [.element "IsTruncated" [.text "true"]])
      "IsTruncated does not match NextContinuationToken") := rfl

/-- Whether a character may appear in an XML tag name (letters, digits,
hyphen, underscore, colon, dot — the subset used by this protocol). -/
def isXmlNameChar (c : Char) : Bool :=
  c.isAlphanum || c = '-' || c = '_' || c = ':' || c = '.'

/-- Read the maximal run of tag-name characters off the front of the input. -/
def takeXmlName : List Char → (List Char × List Char)
  | [] => ([], [])
  | c :: rest =>
    if isXmlNameChar c then
      let (n, r) := takeXmlName rest
      (c :: n, r)
    else ([], c :: rest)

/-- Skip the remainder of a start tag (attributes are accepted and discarded,
since no code under verification reads them) up to `>`; a trailing `/>` marks
a self-closing element. -/
def skipTagRest : List Char → Option (Bool × List Char)
  | [] => none
  | '>' :: rest => some (false, rest)
  | '/' :: '>' :: rest => some (true, rest)
  | _ :: rest => skipTagRest rest

/-- Read the maximal run of non-markup characters off the front of the input
(a text node's content). -/
def takeRawText : List Char → (List Char × List Char)
  | [] => ([], [])
  | c :: rest =>
    if c = '<' then ([], c :: rest)
    else
      let (t, r) := takeRawText rest
      (c :: t, r)

/-- Skip leading whitespace. -/
def skipSpaces : List Char → List Char
  | [] => []
  | c :: rest => if c.isWhitespace then skipSpaces rest else c :: rest

/-- Match a closing tag `</name>` for the given name, returning the input
after it. -/
def matchCloseTag (name : List Char) (cs : List Char) : Option (List Char) :=
  match cs with
  | '<' :: '/' :: rest =>
    let (n, r) := takeXmlName rest
    if n = name then
      match skipSpaces r with
      | '>' :: r2 => some r2
      | _ => none
    else none
  | _ => none

/-- Parse a sequence of sibling nodes, stopping at a closing tag or the end of
input. The fuel argument only bounds the recursion: every recursive call
stands after at least one consumed input character, so fuel exceeding the
input length never runs out. -/
def xmlParseNodes : Nat → List Char → Option (List XNode × List Char)
  | 0, _ => none
  | _ + 1, [] => some ([], [])
  | _ + 1, '<' :: '/' :: rest => some ([], '<' :: '/' :: rest)
  | fuel + 1, '<' :: rest =>
    let (nameCs, r1) := takeXmlName rest
    if nameCs.isEmpty then none
    else
      match skipTagRest r1 with
      | none => none
      | some (true, r2) =>
        (match xmlParseNodes fuel r2 with
        | none => none
        | some (ns, r3) => some (.element (String.mk nameCs) [] :: ns, r3))
      | some (false, r2) =>
        match xmlParseNodes fuel r2 with
        | none => none
        | some (kids, r3) =>
          match matchCloseTag nameCs r3 with
          | none => none
          | some r4 =>
            match xmlParseNodes fuel r4 with
            | none => none
            | some (ns, r5) => some (.element (String.mk nameCs) kids :: ns, r5)
  | fuel + 1, c :: rest =>
    let (t, r1) := takeRawText (c :: rest)
    match xmlParseNodes fuel r1 with
    | none => none
    | some (ns, r2) => some (.text (String.mk t) :: ns, r2)

/-- Parse one element at the front of the input and ignore whatever follows
its closing tag. -/
def xmlParseElement (fuel : Nat) (cs : List Char) : Option XNode :=
  match cs with
  | '<' :: rest =>
    let (nameCs, r1) := takeXmlName rest
    if nameCs.isEmpty then none
    else
      match skipTagRest r1 with
      | none => none
      | some (true, _) => some (.element (String.mk nameCs) [])
      | some (false, r2) =>
        match xmlParseNodes fuel r2 with
        | none => none
        | some (kids, r3) =>
          match matchCloseTag nameCs r3 with
          | none => none
          | some _ => some (.element (String.mk nameCs) kids)
  | _ => none

/-- Skip to just past the next `?>`. -/
def skipPastPIEnd : List Char → Option (List Char)
  | [] => none
  | '?' :: '>' :: rest => some rest
  | _ :: rest => skipPastPIEnd rest

/-- Skip the document prolog: whitespace and `<?...?>` processing
instructions (such as the XML declaration). -/
def skipPrologGo : Nat → List Char → List Char
  | 0, cs => cs
  | fuel + 1, cs =>
    match skipSpaces cs with
    | '<' :: '?' :: rest =>
      (match skipPastPIEnd rest with
      | some r => skipPrologGo fuel r
      | none => '<' :: '?' :: rest)
    | other => other

/-- Modelled behaviour of `xmltree::Element::parse`: skip the prolog, build
the first root element of the document, and stop there — xmltree reads events
only until the root element is closed, so any input after the root's closing
tag is never examined. Comments, CDATA and entity references are outside the
modelled subset; returns `none` where xmltree returns a parse error. -/
def xmlParseDocument (s : String) : Option XNode :=
  let cs := skipPrologGo s.toList.length s.toList
  xmlParseElement (cs.length + 1) cs

example :
    xmlParseDocument "<A><B>hi</B>tail</A>" =
    some (.element "A" [.element "B" [.text "hi"], .text "tail"]) := rfl
example :
    xmlParseDocument "<A>x</A><B>y</B>" = some (.element "A" [.text "x"]) := rfl
example : xmlParseDocument "no markup" = none := rfl

/-- `parse_result_from_bytes` of `list_objects.rs`: parse the response body as
an XML document and decode the root element; a malformed document is the
`Xml` parse failure. -/
def parse_result_from_bytes (bytes : String) : Except ParseError ListObjectsResult :=
  match xmlParseDocument bytes with
  | none => .error (.Xml "malformed XML document")
  | some root => parse_result_from_xml root

/-- `MetaRequestResult` of the CRT s3 client binding, with the fields the
classifier and the unit test construct (`response_status`, `crt_error`,
`error_response_headers`, `error_response_body`). -/
structure MetaRequestResult where
  response_status : Int
  crt_error : Int
  error_response_headers : Option (List (String × String))
  error_response_body : Option String

/-- Modelled from the spec: the domain error for the listing operation — the
recognized server-side bucket-not-found condition ("a 404 response whose body
contains Code NoSuchBucket classifies as the bucket-not-found domain error");
`ListObjectsError` itself is declared in the object-client module, outside
the files under verification. -/
inductive ListObjectsError where
  | NoSuchBucket
deriving DecidableEq

/-- `parse_list_objects_error` of `list_objects.rs`: on a 404, require a body,
parse it as XML, read the `Code` child's text, and classify `NoSuchBucket`;
every other status, code, or failure along the way yields no classification. -/
def parse_list_objects_error (result : MetaRequestResult) : Option ListObjectsError :=
  if result.response_status = 404 then
    match result.error_response_body with
    | none => none
    | some body =>
      match xmlParseDocument body with
      | none => none
      | some root =>
        match getChildList root.children "Code" with
        | none => none
        | some error_code =>
          match error_code.getTextOpt with
          | none => none
          | some error_str =>
            if error_str = "NoSuchBucket" then some .NoSuchBucket else none
  else none

example :
    parse_list_objects_error
      { response_status := 404, crt_error := 1, error_response_headers := none,
        error_response_body :=
          some "<Error><Code>NoSuchBucket</Code><Message>The specified bucket does not exist</Message></Error>" } =
    some .NoSuchBucket := rfl

/-- Modelled from the CRT system bindings (not under the verified files): the
operation-level success sentinel `AWS_OP_SUCCESS`. -/
def AWS_OP_SUCCESS : Int := 0

/-- Modelled from the CRT system bindings (not under the verified files): the
operation-level error sentinel `AWS_OP_ERR`. -/
def AWS_OP_ERR : Int := -1

/-- `common::error::Error` of aws-crt-s3: an opaque wrapper around a native
diagnostic code; `Error::last_error()` wraps the thread-local last-error
slot, `Error::from(n)` reinterprets an integer directly. -/
structure CrtNativeError where
  code : Int
deriving DecidableEq

/-- The `i32` implementation of `CrtError::ok_or_last_error` in
`aws-crt-s3/src/lib.rs`. The thread-local diagnostic the CRT would report via
`aws_last_error()` is passed explicitly as `lastErrorSlot`, making the
"consult the last-error slot" effect a pure argument. -/
def ok_or_last_error (lastErrorSlot : Int) (n : Int) : Except CrtNativeError Unit :=
  if n = AWS_OP_SUCCESS then .ok ()
  else if n = AWS_OP_ERR then .error ⟨lastErrorSlot⟩
  else .error ⟨n⟩

/-- An HTTP request message under construction: method, bucket, headers in
the order set, request path and query parameters in the order set. -/
structure Message where
  method : String
  bucket : String
  headers : List (String × String)
  path : String
  query : List (String × String)
deriving DecidableEq

/-- `S3RequestError` of the s3 client, restricted to the variants the
listing path produces: a wrapped message-construction failure and a wrapped
internal parse failure. -/
inductive S3RequestError where
  | ConstructionFailure (e : CrtNativeError)
  | InternalError (e : ParseError)

/-- `ObjectClientError` of the object-client interface, restricted to the
variants the listing path produces. -/
inductive ObjectClientError where
  | ClientError (e : S3RequestError)
  | ServiceError (e : ListObjectsError)

/-- Modelled from the spec: the message-builder collaborator — a
`new_request_template`, a header setter and a path-and-query setter, "each
fallible with a construction-failure error". The environment injects each
step's possible failure; on success the template is a message for the given
method and bucket carrying the engine's initial headers, and the setters
record their arguments in order. -/
structure MessageEnv where
  templateErr : Option CrtNativeError
  templateHeaders : List (String × String)
  setHeaderErr : Option CrtNativeError
  setPathQueryErr : Option CrtNativeError

/-- Modelled from the spec: `new_request_template(method, bucket)` — on
success, a fresh message for the method and bucket with the engine's initial
headers. -/
def MessageEnv.new_request_template (env : MessageEnv) (method bucket : String) :
    Except CrtNativeError Message :=
  match env.templateErr with
  | some e => .error e
  | none => .ok { method, bucket, headers := env.templateHeaders, path := "", query := [] }

/-- Modelled from the spec: `set_header` — on success, append the header. -/
def MessageEnv.set_header (env : MessageEnv) (m : Message) (h : String × String) :
    Except CrtNativeError Message :=
  match env.setHeaderErr with
  | some e => .error e
  | none => .ok { m with headers := m.headers ++ [h] }

/-- Modelled from the spec: `set_request_path_and_query` — on success, record
the path and the query parameters as given. -/
def MessageEnv.set_request_path_and_query (env : MessageEnv) (m : Message)
    (path : String) (query : List (String × String)) : Except CrtNativeError Message :=
  match env.setPathQueryErr with
  | some e => .error e
  | none => .ok { m with path, query }

/-- The message-construction phase of `S3CrtClient::list_objects`, statement
for statement: GET template for the bucket, the one
`x-amz-optional-object-attributes: RestoreStatus` header, the fixed-order
query — `list-type=2`, `delimiter`, `max-keys`, `prefix` — with
`continuation-token` appended only when one was supplied, set with path `/`;
every step's failure wrapped by `S3RequestError::construction_failure`. -/
def list_objects_build (env : MessageEnv) (bucket : String)
    (continuation_token : Option String) (delimiter : String) (max_keys : Nat)
    (keyPrefixArg : String) : Except S3RequestError Message :=
  match env.new_request_template "GET" bucket with
  | .error e => .error (.ConstructionFailure e)
  | .ok message =>
    match env.set_header message ("x-amz-optional-object-attributes", "RestoreStatus") with
    | .error e => .error (.ConstructionFailure e)
    | .ok message =>
      let maxKeysStr := toString max_keys
      let query := [("list-type", "2"), ("delimiter", delimiter),
        ("max-keys", maxKeysStr), ("prefix", keyPrefixArg)]
      let query :=
        match continuation_token with
        | some ct => query ++ [("continuation-token", ct)]
        | none => query
      match env.set_request_path_and_query message "/" query with
      | .error e => .error (.ConstructionFailure e)
      | .ok message => .ok message

/-- `S3CrtClient::list_objects` end to end: build the message (any failure
surfaces before dispatch), dispatch it through the meta-request collaborator
for the full response body, and decode the body, wrapping a decode failure as
`ClientError(InternalError)`. The asynchronous dispatch is modelled as a
function from the built message to its resolved outcome. -/
def list_objects_model (env : MessageEnv)
    (dispatch : Message → Except ObjectClientError String) (bucket : String)
    (continuation_token : Option String) (delimiter : String) (max_keys : Nat)
    (keyPrefixArg : String) : Except ObjectClientError ListObjectsResult :=
  match list_objects_build env bucket continuation_token delimiter max_keys keyPrefixArg with
  | .error e => .error (.ClientError e)
  | .ok message =>
    match dispatch message with
    | .error e => .error e
    | .ok body =>
      match parse_result_from_bytes body with
      | .error e => .error (.ClientError (.InternalError e))
      | .ok result => .ok result

/-- The residual listing element after the two `take_child` loops of
`parse_result_from_xml` have drained the `Contents` and `CommonPrefixes`
children: the element whose remaining children the token lookup and the
`IsTruncated` read inspect, and which the invariant-violation error carries. -/
def residualAfterExtraction (element : XNode) : XNode :=
  .element element.nodeName
    (removeNamed "CommonPrefixes" (removeNamed "Contents" element.children))

/-- The concrete response body of the spec's parsing scenario: two sibling
top-level elements, `Contents` and `IsTruncated`, with no enclosing root. -/
def scenarioBody : String :=
  "<Contents><Key>a.txt</Key><Size>10</Size><LastModified>2023-01-01T00:00:00Z</LastModified><ETag>\"abc\"</ETag></Contents><IsTruncated>false</IsTruncated>"

/-- The object the spec's parsing scenario describes. -/
def scenarioObject : ObjectInfo :=
  { key := "a.txt", size := 10, last_modified := ⟨2023, 1, 1, 0, 0, 0, 0, 0⟩,
    storage_class := none, restore_status := none, etag := "\"abc\"",
    checksum_algorithms := [] }

/-- A sample listing document tree with two `Contents` and one
`CommonPrefixes` children, used to instantiate the counting property. -/
def sampleListingDoc : XNode :=
  .element "ListBucketResult"
    [.element "Contents"
      [.element "Key" [.text "a"], .element "Size" [.text "1"],
       .element "LastModified" [.text "2023-01-01T00:00:00Z"],
       .element "ETag" [.text "ea"]],
     .element "Contents"
      [.element "Key" [.text "b"], .element "Size" [.text "2"],
       .element "LastModified" [.text "2023-01-02T00:00:00Z"],
       .element "ETag" [.text "eb"]],
     .element "CommonPrefixes" [.element "Prefix" [.text "p/"]],
     .element "IsTruncated" [.text "false"]]

/-- The result `sampleListingDoc` parses to. -/
def sampleListingResult : ListObjectsResult :=
  { objects :=
      [{ key := "a", size := 1, last_modified := ⟨2023, 1, 1, 0, 0, 0, 0, 0⟩,
         storage_class := none, restore_status := none, etag := "ea",
         checksum_algorithms := [] },
       { key := "b", size := 2, last_modified := ⟨2023, 1, 2, 0, 0, 0, 0, 0⟩,
         storage_class := none, restore_status := none, etag := "eb",
         checksum_algorithms := [] }],
    common_prefixes := ["p/"], next_continuation_token := none }

theorem takeChildList_eq_none {name : String} :
    ∀ cs, takeChildList cs name = none →
      elemsNamed name cs = [] ∧ removeNamed name cs = cs := by
  intro cs
  induction cs with
  | nil => intro _; exact ⟨rfl, rfl⟩
  | cons x rest ih =>
    intro h
    cases x with
    | element n k =>
      by_cases hn : n = name
      · simp [takeChildList, hn] at h
      · simp only [takeChildList, if_neg hn] at h
        have h' : takeChildList rest name = none := by
          cases hr : takeChildList rest name with
          | none => rfl
          | some p => rw [hr] at h; cases p; simp at h
        have := ih h'
        simp [elemsNamed, removeNamed, hn, this.1, this.2]
    | text s =>
      simp only [takeChildList] at h
      have h' : takeChildList rest name = none := by
        cases hr : takeChildList rest name with
        | none => rfl
        | some p => rw [hr] at h; cases p; simp at h
      have := ih h'
      simp [elemsNamed, removeNamed, this.1, this.2]

theorem takeChildList_eq_some {name : String} :
    ∀ cs e rest, takeChildList cs name = some (e, rest) →
      elemsNamed name cs = e :: elemsNamed name rest ∧
      removeNamed name cs = removeNamed name rest ∧
      cs.length = rest.length + 1 := by
  intro cs
  induction cs with
  | nil => intro e rest h; simp [takeChildList] at h
  | cons x tl ih =>
    intro e rest h
    cases x with
    | element n k =>
      by_cases hn : n = name
      · simp only [takeChildList, if_pos hn, Option.some.injEq, Prod.mk.injEq] at h
        obtain ⟨he, hrest⟩ := h
        subst he; subst hrest
        simp [elemsNamed, removeNamed, if_pos hn]
      · simp only [takeChildList, if_neg hn] at h
        cases hr : takeChildList tl name with
        | none => rw [hr] at h; simp at h
        | some p =>
          obtain ⟨e2, rest2⟩ := p
          rw [hr] at h
          simp only [Option.some.injEq, Prod.mk.injEq] at h
          obtain ⟨he, hrest⟩ := h
          subst he; subst hrest
          obtain ⟨h1, h2, h3⟩ := ih e2 rest2 hr
          refine ⟨?_, ?_, ?_⟩
          · simp [elemsNamed, if_neg hn, h1]
          · simp [removeNamed, if_neg hn, h2]
          · simp [h3]
    | text s =>
      simp only [takeChildList] at h
      cases hr : takeChildList tl name with
      | none => rw [hr] at h; simp at h
      | some p =>
        obtain ⟨e2, rest2⟩ := p
        rw [hr] at h
        simp only [Option.some.injEq, Prod.mk.injEq] at h
        obtain ⟨he, hrest⟩ := h
        subst he; subst hrest
        obtain ⟨h1, h2, h3⟩ := ih e2 rest2 hr
        refine ⟨?_, ?_, ?_⟩
        · simp [elemsNamed, h1]
        · simp [removeNamed, h2]
        · simp [h3]

theorem takeAllMapMGo_eq {α : Type} {name : String} {f : XNode → Except ParseError α} :
    ∀ fuel cs, cs.length ≤ fuel →
      takeAllMapMGo name f fuel cs =
        match decodeList f (elemsNamed name cs) with
        | .ok l => .ok (l, removeNamed name cs)
        | .error e => .error e := by
  intro fuel
  induction fuel with
  | zero =>
    intro cs hlen
    have : cs = [] := List.length_eq_zero.mp (Nat.le_zero.mp hlen)
    subst this
    simp [takeAllMapMGo, elemsNamed, removeNamed, decodeList]
  | succ fuel ih =>
    intro cs hlen
    cases hr : takeChildList cs name with
    | none =>
      obtain ⟨h1, h2⟩ := takeChildList_eq_none cs hr
      simp [takeAllMapMGo, hr, h1, h2, decodeList]
    | some p =>
      obtain ⟨e, rest⟩ := p
      obtain ⟨h1, h2, h3⟩ := takeChildList_eq_some cs e rest hr
      have hrest : rest.length ≤ fuel := by omega
      simp only [takeAllMapMGo, hr, h1, h2, decodeList]
      cases hf : f e with
      | error err => simp
      | ok a =>
        rw [ih rest hrest]
        cases hd : decodeList f (elemsNamed name rest) with
        | error err => simp
        | ok l => simp [h2]

theorem takeAllMapM_eq {α : Type} {name : String} {f : XNode → Except ParseError α}
    (cs : List XNode) :
    takeAllMapM name f cs =
      match decodeList f (elemsNamed name cs) with
      | .ok l => .ok (l, removeNamed name cs)
      | .error e => .error e :=
  takeAllMapMGo_eq cs.length cs (Nat.le_refl _)

theorem elemsNamed_removeNamed {n m : String} (hnm : n ≠ m) :
    ∀ cs, elemsNamed n (removeNamed m cs) = elemsNamed n cs := by
  intro cs
  induction cs with
  | nil => rfl
  | cons x tl ih =>
    cases x with
    | element nm k =>
      by_cases hm : nm = m
      · have hn : nm ≠ n := by rw [hm]; exact fun h => hnm h.symm
        simp [removeNamed, elemsNamed, if_pos hm, if_neg hn, ih]
      · simp only [removeNamed, if_neg hm, elemsNamed]
        by_cases hn : nm = n
        · simp [if_pos hn, ih]
        · simp [if_neg hn, ih]
    | text s => simp [removeNamed, elemsNamed, ih]

theorem getChildList_removeNamed {n m : String} (hnm : n ≠ m) :
    ∀ cs, getChildList (removeNamed m cs) n = getChildList cs n := by
  intro cs
  induction cs with
  | nil => rfl
  | cons x tl ih =>
    cases x with
    | element nm k =>
      by_cases hm : nm = m
      · have hn : nm ≠ n := by rw [hm]; exact fun h => hnm h.symm
        simp [removeNamed, getChildList, if_pos hm, if_neg hn, ih]
      · simp only [removeNamed, if_neg hm, getChildList]
        by_cases hn : nm = n
        · simp [if_pos hn]
        · simp [if_neg hn, ih]
    | text s => simp [removeNamed, getChildList, ih]

theorem decodeList_ok_length {α : Type} {f : XNode → Except ParseError α} :
    ∀ es l, decodeList f es = .ok l → l.length = es.length := by
  intro es
  induction es with
  | nil => intro l h; simp [decodeList] at h; simp [← h]
  | cons e tl ih =>
    intro l h
    simp only [decodeList] at h
    cases hf : f e with
    | error err => rw [hf] at h; simp at h
    | ok a =>
      rw [hf] at h
      cases hd : decodeList f tl with
      | error err => rw [hd] at h; simp at h
      | ok l2 =>
        rw [hd] at h
        simp only [Except.ok.injEq] at h
        subst h
        simp [ih l2 hd]

theorem decodeList_total {α : Type} {f : XNode → Except ParseError α} :
    ∀ es, (∀ e ∈ es, ∃ a, f e = .ok a) →
      ∃ l, decodeList f es = .ok l ∧ l.length = es.length := by
  intro es
  induction es with
  | nil => intro _; exact ⟨[], rfl, rfl⟩
  | cons e tl ih =>
    intro h
    obtain ⟨a, ha⟩ := h e (List.mem_cons_self e tl)
    obtain ⟨l, hl, hlen⟩ := ih (fun x hx => h x (List.mem_cons_of_mem e hx))
    refine ⟨a :: l, ?_, by simp [hlen]⟩
    simp [decodeList, ha, hl]

/-- C3: for every i32 input to the integer-code translation
`ok_or_last_error`, the success sentinel yields Ok(()), the error sentinel
yields Err with the engine's last-error diagnostic, and any other integer
yields Err with an error constructed directly from that integer code; the
function is total and never returns success for a non-success-sentinel
input. -/
theorem ok_or_last_error_spec (slot n : Int) :
    (n = AWS_OP_SUCCESS → ok_or_last_error slot n = .ok ()) ∧
    (n = AWS_OP_ERR → ok_or_last_error slot n = .error ⟨slot⟩) ∧
    (n ≠ AWS_OP_SUCCESS → n ≠ AWS_OP_ERR → ok_or_last_error slot n = .error ⟨n⟩) ∧
    (∀ u, ok_or_last_error slot n = .ok u → n = AWS_OP_SUCCESS) := by
  unfold ok_or_last_error
  refine ⟨fun h => by simp [h], fun h => ?_, fun h1 h2 => by simp [h1, h2], fun u h => ?_⟩
  · simp [h, AWS_OP_ERR, AWS_OP_SUCCESS]
  · by_cases h1 : n = AWS_OP_SUCCESS
    · exact h1
    · rw [if_neg h1] at h
      by_cases h2 : n = AWS_OP_ERR
      · rw [if_pos h2] at h; simp at h
      · rw [if_neg h2] at h; simp at h

theorem ok_or_last_error_spec_witness :
    ok_or_last_error 7 AWS_OP_SUCCESS = .ok () ∧
    ok_or_last_error 7 AWS_OP_ERR = .error ⟨7⟩ ∧
    ok_or_last_error 7 42 = .error ⟨42⟩ :=
  ⟨(ok_or_last_error_spec 7 AWS_OP_SUCCESS).1 rfl,
   (ok_or_last_error_spec 7 AWS_OP_ERR).2.1 rfl,
   (ok_or_last_error_spec 7 42).2.2.1 (by decide) (by decide)⟩

/-- C4: a `RestoreStatus` element whose `IsRestoreInProgress` field parses as
true makes `parse_restore_status` yield Some(InProgress) regardless of any
`RestoreExpiryDate` sibling; when it parses as false, the `RestoreExpiryDate`
field is required — its absence fails with MissingField naming it — and when
present and parsing as an RFC 3339 timestamp it yields Some(Restored) with
the parsed instant. -/
theorem parse_restore_status_spec (e rs : XNode)
    (hrs : getChildList e.children "RestoreStatus" = some rs)
    (s : String) (hs : get_field rs "IsRestoreInProgress" = .ok s) :
    (boolFromStr s = some true →
      parse_restore_status e = .ok (some .InProgress)) ∧
    (boolFromStr s = some false →
      getChildList rs.children "RestoreExpiryDate" = none →
      parse_restore_status e = .error (.MissingField rs "RestoreExpiryDate")) ∧
    (∀ d t, boolFromStr s = some false →
      get_field rs "RestoreExpiryDate" = .ok d → parseRfc3339 d = some t →
      parse_restore_status e = .ok (some (.Restored t))) := by
  refine ⟨?_, ?_, ?_⟩
  · intro hb
    simp only [parse_restore_status, hrs, hs, hb]
  · intro hb hmiss
    have hfield : get_field rs "RestoreExpiryDate" =
        .error (.MissingField rs "RestoreExpiryDate") := by
      simp only [get_field, get_child, hmiss]
    simp only [parse_restore_status, hrs, hs, hb, hfield]
  · intro d t hb hd ht
    simp only [parse_restore_status, hrs, hs, hb, hd, ht]

theorem parse_restore_status_spec_witness :
    parse_restore_status (.element "Contents" [.element "RestoreStatus"
      [.element "IsRestoreInProgress" [.text "true"],
       .element "RestoreExpiryDate" [.text "2023-06-01T00:00:00Z"]]]) =
      .ok (some .InProgress) ∧
    parse_restore_status (.element "Contents" [.element "RestoreStatus"
      [.element "IsRestoreInProgress" [.text "false"]]]) =
      .error (.MissingField
        (.element "RestoreStatus" [.element "IsRestoreInProgress" [.text "false"]])
        "RestoreExpiryDate") ∧
    parse_restore_status (.element "Contents" [.element "RestoreStatus"
      [.element "IsRestoreInProgress" [.text "false"],
       .element "RestoreExpiryDate" [.text "2023-06-01T00:00:00Z"]]]) =
      .ok (some (.Restored ⟨2023, 6, 1, 0, 0, 0, 0, 0⟩)) :=
  ⟨(parse_restore_status_spec
      (.element "Contents" [.element "RestoreStatus"
        [.element "IsRestoreInProgress" [.text "true"],
         .element "RestoreExpiryDate" [.text "2023-06-01T00:00:00Z"]]])
      (.element "RestoreStatus"
        [.element "IsRestoreInProgress" [.text "true"],
         .element "RestoreExpiryDate" [.text "2023-06-01T00:00:00Z"]])
      rfl "true" rfl).1 rfl,
   (parse_restore_status_spec
      (.element "Contents" [.element "RestoreStatus"
        [.element "IsRestoreInProgress" [.text "false"]]])
      (.element "RestoreStatus" [.element "IsRestoreInProgress" [.text "false"]])
      rfl "false" rfl).2.1 rfl rfl,
   (parse_restore_status_spec
      (.element "Contents" [.element "RestoreStatus"
        [.element "IsRestoreInProgress" [.text "false"],
         .element "RestoreExpiryDate" [.text "2023-06-01T00:00:00Z"]]])
      (.element "RestoreStatus"
        [.element "IsRestoreInProgress" [.text "false"],
         .element "RestoreExpiryDate" [.text "2023-06-01T00:00:00Z"]])
      rfl "false" rfl).2.2 "2023-06-01T00:00:00Z" ⟨2023, 6, 1, 0, 0, 0, 0, 0⟩
      rfl rfl rfl⟩

/-- C9: whenever the `StorageClass` extraction fails (child absent, or
present without text), `parse_object_info_from_xml` silently records
`storage_class = none` and still succeeds provided every other field
decodes, rather than surfacing the failure as a parse error. -/
theorem storage_class_failure_is_none (e : XNode) (k s lm et : String) (n : Nat)
    (t : Rfc3339Time) (rs : Option RestoreStatus) (cas : List ChecksumAlgorithm)
    (hk : get_field e "Key" = .ok k)
    (hs : get_field e "Size" = .ok s) (hn : u64FromStr s = some n)
    (hlm : get_field e "LastModified" = .ok lm) (ht : parseRfc3339 lm = some t)
    (hrs : parse_restore_status e = .ok rs)
    (het : get_field e "ETag" = .ok et)
    (hcas : parse_checksum_algorithm e = .ok cas)
    (hsc : ∃ err, get_field e "StorageClass" = .error err) :
    parse_object_info_from_xml e = .ok
      { key := k, size := n, last_modified := t, storage_class := none,
        restore_status := rs, etag := et, checksum_algorithms := cas } := by
  obtain ⟨err, herr⟩ := hsc
  simp only [parse_object_info_from_xml, hk, hs, hn, hlm, ht, herr, hrs, het,
    hcas, Except.toOption]

theorem storage_class_failure_is_none_witness :
    parse_object_info_from_xml (.element "Contents"
      [.element "Key" [.text "k"], .element "Size" [.text "1"],
       .element "LastModified" [.text "2023-01-01T00:00:00Z"],
       .element "StorageClass" [], .element "ETag" [.text "etag"]]) =
    .ok { key := "k", size := 1, last_modified := ⟨2023, 1, 1, 0, 0, 0, 0, 0⟩,
          storage_class := none, restore_status := none, etag := "etag",
          checksum_algorithms := [] } :=
  storage_class_failure_is_none _ "k" "1" "2023-01-01T00:00:00Z" "etag" 1
    ⟨2023, 1, 1, 0, 0, 0, 0, 0⟩ none [] rfl rfl rfl rfl rfl rfl rfl rfl
    ⟨.InvalidResponse (.element "StorageClass" []) "field has no text", rfl⟩

/-- C5: `parse_checksum_algorithm` decodes the `ChecksumAlgorithm` children
in document order through the fixed name table — CRC64NVME, CRC32, CRC32C,
SHA1, SHA256 map to their variants, any other name s maps to Unknown(s)
preserving the text — zero children yield the empty sequence, and children
with text never produce an error. -/
theorem parse_checksum_algorithm_spec (e : XNode) :
    parse_checksum_algorithm e =
      decodeList (fun content => (get_text content).map checksumAlgorithmFromStr)
        (elemsNamed "ChecksumAlgorithm" e.children) ∧
    (checksumAlgorithmFromStr "CRC64NVME" = .Crc64nvme ∧
     checksumAlgorithmFromStr "CRC32" = .Crc32 ∧
     checksumAlgorithmFromStr "CRC32C" = .Crc32c ∧
     checksumAlgorithmFromStr "SHA1" = .Sha1 ∧
     checksumAlgorithmFromStr "SHA256" = .Sha256) ∧
    (∀ s : String, s ≠ "CRC64NVME" → s ≠ "CRC32" → s ≠ "CRC32C" → s ≠ "SHA1" →
      s ≠ "SHA256" → checksumAlgorithmFromStr s = .Unknown s) ∧
    (elemsNamed "ChecksumAlgorithm" e.children = [] →
      parse_checksum_algorithm e = .ok []) ∧
    ((∀ c ∈ elemsNamed "ChecksumAlgorithm" e.children, ∃ t, get_text c = .ok t) →
      ∃ l, parse_checksum_algorithm e = .ok l ∧
        l.length = (elemsNamed "ChecksumAlgorithm" e.children).length) := by
  have h1 : parse_checksum_algorithm e =
      decodeList (fun content => (get_text content).map checksumAlgorithmFromStr)
        (elemsNamed "ChecksumAlgorithm" e.children) := by
    unfold parse_checksum_algorithm
    rw [takeAllMapM_eq]
    cases decodeList (fun content => (get_text content).map checksumAlgorithmFromStr)
        (elemsNamed "ChecksumAlgorithm" e.children) <;> rfl
  refine ⟨h1, ⟨rfl, rfl, rfl, rfl, rfl⟩, ?_, ?_, ?_⟩
  · intro s hs1 hs2 hs3 hs4 hs5
    unfold checksumAlgorithmFromStr
    split <;> simp_all
  · intro hempty
    rw [h1, hempty]
    rfl
  · intro h
    have hall : ∀ c ∈ elemsNamed "ChecksumAlgorithm" e.children,
        ∃ a, (fun content => (get_text content).map checksumAlgorithmFromStr) c =
          Except.ok a := by
      intro c hc
      obtain ⟨t, ht⟩ := h c hc
      refine ⟨checksumAlgorithmFromStr t, ?_⟩
      show (get_text c).map checksumAlgorithmFromStr = _
      rw [ht]
      rfl
    obtain ⟨l, hl, hlen⟩ := decodeList_total _ hall
    exact ⟨l, h1.trans hl, hlen⟩

theorem parse_checksum_algorithm_spec_witness :
    checksumAlgorithmFromStr "FOO" = .Unknown "FOO" ∧
    parse_checksum_algorithm (.element "Contents"
      [.element "ChecksumAlgorithm" [.text "SHA256"],
       .element "ChecksumAlgorithm" [.text "FOO"]]) =
      .ok [.Sha256, .Unknown "FOO"] ∧
    parse_checksum_algorithm (.element "Contents" [.element "Key" [.text "k"]]) = .ok [] :=
  ⟨(parse_checksum_algorithm_spec (.element "Contents" [])).2.2.1 "FOO"
      (by decide) (by decide) (by decide) (by decide) (by decide),
   ((parse_checksum_algorithm_spec (.element "Contents"
      [.element "ChecksumAlgorithm" [.text "SHA256"],
       .element "ChecksumAlgorithm" [.text "FOO"]])).1).trans rfl,
   (parse_checksum_algorithm_spec
      (.element "Contents" [.element "Key" [.text "k"]])).2.2.2.1 rfl⟩

/-- C10: a `NextContinuationToken` element that is present but has no text
makes `parse_result_from_xml` fail with the invalid-response "field has no
text" error; an empty token element is never decoded as an absent token. -/
theorem empty_continuation_token_fails (e c : XNode)
    (objs : List ObjectInfo) (pfxs : List String)
    (hobjs : decodeList parse_object_info_from_xml
      (elemsNamed "Contents" e.children) = .ok objs)
    (hpfxs : decodeList (fun cp => get_field cp "Prefix")
      (elemsNamed "CommonPrefixes" e.children) = .ok pfxs)
    (hc : getChildList e.children "NextContinuationToken" = some c)
    (hno : c.getTextOpt = none) :
    parse_result_from_xml e = .error (.InvalidResponse c "field has no text") := by
  have hne1 : ("CommonPrefixes" : String) ≠ "Contents" := by decide
  have hne2 : ("NextContinuationToken" : String) ≠ "Contents" := by decide
  have hne3 : ("NextContinuationToken" : String) ≠ "CommonPrefixes" := by decide
  unfold parse_result_from_xml
  rw [takeAllMapM_eq, hobjs]
  simp only
  rw [takeAllMapM_eq, elemsNamed_removeNamed hne1, hpfxs]
  simp only [nextContinuationTokenLookup, getChildList_removeNamed hne3,
    getChildList_removeNamed hne2, hc, get_text, hno]

theorem empty_continuation_token_fails_witness :
    parse_result_from_xml (.element "ListBucketResult"
      [.element "NextContinuationToken" [], .element "IsTruncated" [.text "true"]]) =
    .error (.InvalidResponse (.element "NextContinuationToken" []) "field has no text") :=
  empty_continuation_token_fails
    (.element "ListBucketResult"
      [.element "NextContinuationToken" [], .element "IsTruncated" [.text "true"]])
    (.element "NextContinuationToken" []) [] [] rfl rfl rfl rfl

/-- Helper: a successful `parse_result_from_xml` run is exactly the in-order
decoding of the Contents and CommonPrefixes children, a token lookup on the
residual element, and an `IsTruncated` boolean that parses and matches the
token's presence. -/
theorem parse_result_ok_characterization (e : XNode) (r : ListObjectsResult)
    (h : parse_result_from_xml e = .ok r) :
    decodeList parse_object_info_from_xml (elemsNamed "Contents" e.children) =
      .ok r.objects ∧
    decodeList (fun cp => get_field cp "Prefix")
      (elemsNamed "CommonPrefixes" e.children) = .ok r.common_prefixes ∧
    nextContinuationTokenLookup (residualAfterExtraction e).children =
      .ok r.next_continuation_token ∧
    ∃ s, get_field (residualAfterExtraction e) "IsTruncated" = .ok s ∧
      boolFromStr s = some r.next_continuation_token.isSome := by
  have hne1 : ("CommonPrefixes" : String) ≠ "Contents" := by decide
  unfold parse_result_from_xml at h
  rw [takeAllMapM_eq] at h
  cases h1 : decodeList parse_object_info_from_xml (elemsNamed "Contents" e.children) with
  | error err => rw [h1] at h; simp at h
  | ok objs =>
    rw [h1] at h
    simp only at h
    rw [takeAllMapM_eq] at h
    cases h2 : decodeList (fun cp => get_field cp "Prefix")
        (elemsNamed "CommonPrefixes" (removeNamed "Contents" e.children)) with
    | error err => rw [h2] at h; simp at h
    | ok pfxs =>
      rw [h2] at h
      simp only at h
      cases h3 : nextContinuationTokenLookup
          (removeNamed "CommonPrefixes" (removeNamed "Contents" e.children)) with
      | error err => rw [h3] at h; simp at h
      | ok tok =>
        rw [h3] at h
        simp only at h
        cases h4 : get_field
            (XNode.element e.nodeName
              (removeNamed "CommonPrefixes" (removeNamed "Contents" e.children)))
            "IsTruncated" with
        | error err => rw [h4] at h; simp at h
        | ok s =>
          rw [h4] at h
          simp only at h
          cases h5 : boolFromStr s with
          | none => rw [h5] at h; simp at h
          | some b =>
            rw [h5] at h
            simp only at h
            by_cases h6 : b = tok.isSome
            · rw [if_neg (by simp [h6])] at h
              simp only [Except.ok.injEq] at h
              subst h
              rw [elemsNamed_removeNamed hne1] at h2
              exact ⟨rfl, h2, h3, s, h4, by rw [h5, h6]⟩
            · rw [if_pos h6] at h
              simp at h

/-- C1: whenever a listing document parses successfully, the `IsTruncated`
boolean extracted from the drained document equals the presence of
`NextContinuationToken`; whenever the two extracted pieces disagree,
`parse_result_from_xml` returns the semantic-invariant `InvalidResponse`
failure naming both fields and never a success value. -/
theorem is_truncated_matches_token (e : XNode) :
    (∀ r, parse_result_from_xml e = .ok r →
      ∃ s, get_field (residualAfterExtraction e) "IsTruncated" = .ok s ∧
        boolFromStr s = some r.next_continuation_token.isSome) ∧
    (∀ objs pfxs tok s b,
      decodeList parse_object_info_from_xml (elemsNamed "Contents" e.children) =
        .ok objs →
      decodeList (fun cp => get_field cp "Prefix")
        (elemsNamed "CommonPrefixes" e.children) = .ok pfxs →
      nextContinuationTokenLookup (residualAfterExtraction e).children = .ok tok →
      get_field (residualAfterExtraction e) "IsTruncated" = .ok s →
      boolFromStr s = some b →
      b ≠ tok.isSome →
      parse_result_from_xml e =
        .error (.InvalidResponse (residualAfterExtraction e)
          "IsTruncated does not match NextContinuationToken")) := by
  have hne1 : ("CommonPrefixes" : String) ≠ "Contents" := by decide
  constructor
  · intro r h
    exact (parse_result_ok_characterization e r h).2.2.2
  · intro objs pfxs tok s b h1 h2 h3 h4 h5 h6
    have h3' : nextContinuationTokenLookup
        (removeNamed "CommonPrefixes" (removeNamed "Contents" e.children)) = .ok tok := h3
    have h4' : get_field
        (XNode.element e.nodeName
          (removeNamed "CommonPrefixes" (removeNamed "Contents" e.children)))
        "IsTruncated" = .ok s := h4
    unfold parse_result_from_xml
    rw [takeAllMapM_eq, h1]
    simp only
    rw [takeAllMapM_eq, elemsNamed_removeNamed hne1, h2]
    simp only
    rw [h3']
    simp only
    rw [h4']
    simp only
    rw [h5]
    simp only
    rw [if_pos h6]
    rfl

theorem is_truncated_matches_token_witness :
    parse_result_from_xml (.element "ListBucketResult"
      [.element "IsTruncated" [.text "true"]]) =
      .error (.InvalidResponse (.element "ListBucketResult"
        [.element "IsTruncated" [.text "true"]])
        "IsTruncated does not match NextContinuationToken") ∧
    parse_result_from_xml (.element "ListBucketResult"
      [.element "NextContinuationToken" [.text "tok"],
       .element "IsTruncated" [.text "true"]]) =
      .ok { objects := [], common_prefixes := [],
            next_continuation_token := some "tok" } ∧
    boolFromStr "true" = some (some "tok" : Option String).isSome :=
  ⟨(is_truncated_matches_token (.element "ListBucketResult"
      [.element "IsTruncated" [.text "true"]])).2 [] [] none "true" true
      rfl rfl rfl rfl rfl (by decide),
   rfl,
   rfl⟩

/-- C2: every document that parses successfully yields exactly the in-order
decoding of its top-level `Contents` elements as objects and of its top-level
`CommonPrefixes` elements as prefixes — in particular, with N decodable
`Contents` and M decodable `CommonPrefixes` elements the result holds exactly
N objects and M prefixes in document order. -/
theorem listing_counts_and_order (e : XNode) (r : ListObjectsResult)
    (h : parse_result_from_xml e = .ok r) :
    decodeList parse_object_info_from_xml (elemsNamed "Contents" e.children) =
      .ok r.objects ∧
    decodeList (fun cp => get_field cp "Prefix")
      (elemsNamed "CommonPrefixes" e.children) = .ok r.common_prefixes ∧
    r.objects.length = (elemsNamed "Contents" e.children).length ∧
    r.common_prefixes.length = (elemsNamed "CommonPrefixes" e.children).length := by
  obtain ⟨h1, h2, -, -⟩ := parse_result_ok_characterization e r h
  exact ⟨h1, h2, decodeList_ok_length _ _ h1, decodeList_ok_length _ _ h2⟩

theorem listing_counts_and_order_witness :
    parse_result_from_xml sampleListingDoc = .ok sampleListingResult ∧
    sampleListingResult.objects.length =
      (elemsNamed "Contents" sampleListingDoc.children).length ∧
    sampleListingResult.common_prefixes.length =
      (elemsNamed "CommonPrefixes" sampleListingDoc.children).length ∧
    (elemsNamed "Contents" sampleListingDoc.children).length = 2 ∧
    (elemsNamed "CommonPrefixes" sampleListingDoc.children).length = 1 :=
  ⟨rfl,
   (listing_counts_and_order sampleListingDoc sampleListingResult rfl).2.2.1,
   (listing_counts_and_order sampleListingDoc sampleListingResult rfl).2.2.2,
   rfl, rfl⟩

/-- C6: the error classifier is total, and classifies `NoSuchBucket` exactly
when the status is 404 with a present body that parses as XML whose `Code`
element's text is "NoSuchBucket"; in every other situation — other status,
other code, missing body, unparseable body — it yields no classification and
never propagates a parse error. -/
theorem parse_list_objects_error_spec (r : MetaRequestResult) :
    (parse_list_objects_error r = some .NoSuchBucket ↔
      r.response_status = 404 ∧
      ∃ body root code, r.error_response_body = some body ∧
        xmlParseDocument body = some root ∧
        getChildList root.children "Code" = some code ∧
        code.getTextOpt = some "NoSuchBucket") ∧
    (parse_list_objects_error r = none ∨
     parse_list_objects_error r = some .NoSuchBucket) := by
  constructor
  · constructor
    · intro h
      unfold parse_list_objects_error at h
      by_cases h404 : r.response_status = 404
      · rw [if_pos h404] at h
        cases hb : r.error_response_body with
        | none => rw [hb] at h; simp at h
        | some body =>
          rw [hb] at h
          simp only at h
          cases hx : xmlParseDocument body with
          | none => rw [hx] at h; simp at h
          | some root =>
            rw [hx] at h
            simp only at h
            cases hc : getChildList root.children "Code" with
            | none => rw [hc] at h; simp at h
            | some code =>
              rw [hc] at h
              simp only at h
              cases ht : code.getTextOpt with
              | none => rw [ht] at h; simp at h
              | some es =>
                rw [ht] at h
                simp only at h
                by_cases hes : es = "NoSuchBucket"
                · rw [hes] at ht
                  exact ⟨h404, body, root, code, rfl, hx, hc, ht⟩
                · rw [if_neg hes] at h; simp at h
      · rw [if_neg h404] at h; simp at h
    · rintro ⟨h404, body, root, code, hb, hx, hc, ht⟩
      unfold parse_list_objects_error
      rw [if_pos h404, hb]
      simp only
      rw [hx]
      simp only
      rw [hc]
      simp only
      rw [ht]
      simp
  · cases hp : parse_list_objects_error r with
    | none => exact .inl rfl
    | some v => cases v; exact .inr rfl

theorem parse_list_objects_error_spec_witness :
    parse_list_objects_error
      { response_status := 404, crt_error := 1, error_response_headers := none,
        error_response_body := some "<Error><Code>NoSuchBucket</Code></Error>" } =
      some .NoSuchBucket ∧
    parse_list_objects_error
      { response_status := 403, crt_error := 1, error_response_headers := none,
        error_response_body := some "<Error><Code>NoSuchBucket</Code></Error>" } =
      none ∧
    parse_list_objects_error
      { response_status := 404, crt_error := 1, error_response_headers := none,
        error_response_body := some "<Error><Code>AccessDenied</Code></Error>" } =
      none :=
  ⟨(parse_list_objects_error_spec
      { response_status := 404, crt_error := 1, error_response_headers := none,
        error_response_body :=
          some "<Error><Code>NoSuchBucket</Code></Error>" }).1.mpr
      ⟨rfl, "<Error><Code>NoSuchBucket</Code></Error>",
        .element "Error" [.element "Code" [.text "NoSuchBucket"]],
        .element "Code" [.text "NoSuchBucket"], rfl, rfl, rfl, rfl⟩,
   rfl, rfl⟩

/-- C7: with every builder step succeeding, the built request is a GET whose
query parameters stand in the fixed order list-type=2, delimiter, max-keys,
prefix, then continuation-token exactly when a token argument was supplied,
with path `/` and exactly one header (x-amz-optional-object-attributes:
RestoreStatus) set beyond the template's; and every message-construction
failure is wrapped as a construction-failure client error before any
dispatch occurs (the outcome is the wrapped error whatever the dispatcher
would have returned). -/
theorem list_objects_request_shape (env : MessageEnv)
    (dispatch : Message → Except ObjectClientError String) (bucket : String)
    (continuation_token : Option String) (delimiter : String) (max_keys : Nat)
    (keyPrefixArg : String) :
    (env.templateErr = none → env.setHeaderErr = none → env.setPathQueryErr = none →
      list_objects_build env bucket continuation_token delimiter max_keys keyPrefixArg =
        .ok { method := "GET", bucket := bucket,
              headers := env.templateHeaders ++
                [("x-amz-optional-object-attributes", "RestoreStatus")],
              path := "/",
              query := [("list-type", "2"), ("delimiter", delimiter),
                ("max-keys", toString max_keys), ("prefix", keyPrefixArg)] ++
                (match continuation_token with
                 | some ct => [("continuation-token", ct)]
                 | none => []) }) ∧
    (∀ err, env.templateErr = some err →
      list_objects_model env dispatch bucket continuation_token delimiter max_keys
        keyPrefixArg = .error (.ClientError (.ConstructionFailure err))) ∧
    (∀ err, env.templateErr = none → env.setHeaderErr = some err →
      list_objects_model env dispatch bucket continuation_token delimiter max_keys
        keyPrefixArg = .error (.ClientError (.ConstructionFailure err))) ∧
    (∀ err, env.templateErr = none → env.setHeaderErr = none →
      env.setPathQueryErr = some err →
      list_objects_model env dispatch bucket continuation_token delimiter max_keys
        keyPrefixArg = .error (.ClientError (.ConstructionFailure err))) := by
  refine ⟨fun h1 h2 h3 => ?_, fun err h1 => ?_, fun err h1 h2 => ?_,
    fun err h1 h2 h3 => ?_⟩
  · simp only [list_objects_build, MessageEnv.new_request_template, h1,
      MessageEnv.set_header, h2, MessageEnv.set_request_path_and_query, h3]
    cases continuation_token <;> rfl
  · simp only [list_objects_model, list_objects_build,
      MessageEnv.new_request_template, h1]
  · simp only [list_objects_model, list_objects_build,
      MessageEnv.new_request_template, h1, MessageEnv.set_header, h2]
  · simp only [list_objects_model, list_objects_build,
      MessageEnv.new_request_template, h1, MessageEnv.set_header, h2,
      MessageEnv.set_request_path_and_query, h3]

theorem list_objects_request_shape_witness :
    list_objects_build
      { templateErr := none, templateHeaders := [("Host", "bucket.s3")],
        setHeaderErr := none, setPathQueryErr := none }
      "bucket" (some "tok") "/" 100 "pre" =
      .ok { method := "GET", bucket := "bucket",
            headers := [("Host", "bucket.s3"),
              ("x-amz-optional-object-attributes", "RestoreStatus")],
            path := "/",
            query := [("list-type", "2"), ("delimiter", "/"), ("max-keys", "100"),
              ("prefix", "pre"), ("continuation-token", "tok")] } ∧
    list_objects_build
      { templateErr := none, templateHeaders := [("Host", "bucket.s3")],
        setHeaderErr := none, setPathQueryErr := none }
      "bucket" none "/" 100 "pre" =
      .ok { method := "GET", bucket := "bucket",
            headers := [("Host", "bucket.s3"),
              ("x-amz-optional-object-attributes", "RestoreStatus")],
            path := "/",
            query := [("list-type", "2"), ("delimiter", "/"), ("max-keys", "100"),
              ("prefix", "pre")] } ∧
    list_objects_model
      { templateErr := some ⟨5⟩, templateHeaders := [],
        setHeaderErr := none, setPathQueryErr := none }
      (fun _ => .ok "") "bucket" none "/" 100 "pre" =
      .error (.ClientError (.ConstructionFailure ⟨5⟩)) :=
  ⟨(list_objects_request_shape
      { templateErr := none, templateHeaders := [("Host", "bucket.s3")],
        setHeaderErr := none, setPathQueryErr := none }
      (fun _ => .ok "") "bucket" (some "tok") "/" 100 "pre").1 rfl rfl rfl,
   (list_objects_request_shape
      { templateErr := none, templateHeaders := [("Host", "bucket.s3")],
        setHeaderErr := none, setPathQueryErr := none }
      (fun _ => .ok "") "bucket" none "/" 100 "pre").1 rfl rfl rfl,
   (list_objects_request_shape
      { templateErr := some ⟨5⟩, templateHeaders := [],
        setHeaderErr := none, setPathQueryErr := none }
      (fun _ => .ok "") "bucket" none "/" 100 "pre").2.1 ⟨5⟩ rfl⟩

/-- C8 (counterexample): the spec's exact byte sequence holds two sibling
top-level elements and so is not a single-rooted XML document; xmltree's
parse yields only the first root element (`Contents`), never seeing the
trailing `IsTruncated` element, and decoding that root as a listing result
fails with MissingField("IsTruncated") instead of the claimed success. -/
theorem scenario_unwrapped_fails :
    parse_result_from_bytes scenarioBody =
      .error (.MissingField (.element "Contents"
        [.element "Key" [.text "a.txt"], .element "Size" [.text "10"],
         .element "LastModified" [.text "2023-01-01T00:00:00Z"],
         .element "ETag" [.text "\"abc\""]]) "IsTruncated") := rfl

/-- C8 (amended): the scenario byte sequence wrapped in a single root element
parses to exactly one object {key="a.txt", size=10,
last_modified=2023-01-01T00:00:00Z, etag="\"abc\"", storage_class=None,
restore_status=None, checksum_algorithms=[]}, zero common prefixes, and no
continuation token. -/
theorem scenario_wrapped_parses :
    parse_result_from_bytes
        ("<ListBucketResult>" ++ scenarioBody ++ "</ListBucketResult>") =
      .ok { objects := [scenarioObject], common_prefixes := [],
            next_continuation_token := none } := rfl
